import Mathlib

/-!
Verification of the goping repository (an fping-style concurrent ICMP
pinger written in Go) against its natural-language specification.

The development shallowly embeds the two source packages that the claims
are about:

* `target` (src/target/target.go): IP-list generation from ranges and
  CIDR blocks.  `net.IP` values are 4-byte vectors; we embed them as a
  structure of four `Nat` bytes (each `< 256`, tracked by `IPv4.Valid`).
  Go byte arithmetic wraps, so `incrementIP` takes each byte mod 256.
  The generation loops are embedded with explicit fuel: a `none` result
  means the loop has not finished within the given number of iterations
  (used to exhibit non-termination: `none` for every fuel).

* `ping` (src/ping/pinger.go and the variant of the same file stored as
  src/unnamed/part_001): the pinger state (targets plus the per-target
  `Result` map) and the state transitions performed by `sendPings`
  (`Sent++`), the listeners (reply processing) and the timeout branch.
  Each mutex-protected section of the Go code is modelled as one atomic
  step on the state; an arbitrary interleaving of those steps is the
  inductive `Reachable` relation.  DNS is an environment parameter
  `dns : String → List String` (the `net.LookupIP` results).  Durations
  (`time.Duration`, an int64 nanosecond count) are embedded as `Int`.
-/

namespace GoPing

/-- A 4-byte IPv4 address as produced by `net.IP.To4()`: four bytes in
big-endian order. -/
structure IPv4 where
  b0 : Nat
  b1 : Nat
  b2 : Nat
  b3 : Nat
deriving DecidableEq, Repr

/-- All four bytes are in range, as Go's `byte` type guarantees. -/
def IPv4.Valid (ip : IPv4) : Prop :=
  ip.b0 < 256 ∧ ip.b1 < 256 ∧ ip.b2 < 256 ∧ ip.b3 < 256

instance (ip : IPv4) : Decidable ip.Valid :=
  inferInstanceAs (Decidable (ip.b0 < 256 ∧ ip.b1 < 256 ∧ ip.b2 < 256 ∧ ip.b3 < 256))

/-- The numeric (big-endian) value of an address. -/
def IPv4.toNat (ip : IPv4) : Nat :=
  ip.b0 * 16777216 + ip.b1 * 65536 + ip.b2 * 256 + ip.b3

/-- The address with the given numeric value (inverse of `IPv4.toNat`). -/
def IPv4.ofNat (n : Nat) : IPv4 :=
  ⟨n / 16777216 % 256, n / 65536 % 256, n / 256 % 256, n % 256⟩

/-- Embeds `incrementIP` (src/target/target.go lines 161-168): increment
the last byte; on wrap to zero, carry into the next byte to the left.
Go byte addition wraps modulo 256, hence the explicit `% 256`. -/
def incrementIP (ip : IPv4) : IPv4 :=
  if 0 < (ip.b3 + 1) % 256 then ⟨ip.b0, ip.b1, ip.b2, (ip.b3 + 1) % 256⟩ else
  if 0 < (ip.b2 + 1) % 256 then ⟨ip.b0, ip.b1, (ip.b2 + 1) % 256, (ip.b3 + 1) % 256⟩ else
  if 0 < (ip.b1 + 1) % 256 then ⟨ip.b0, (ip.b1 + 1) % 256, (ip.b2 + 1) % 256, (ip.b3 + 1) % 256⟩ else
  ⟨(ip.b0 + 1) % 256, (ip.b1 + 1) % 256, (ip.b2 + 1) % 256, (ip.b3 + 1) % 256⟩

/-- Embeds `lessThanOrEqual` (src/target/target.go lines 149-158):
byte-wise big-endian comparison, `true` when all bytes are equal. -/
def lessThanOrEqual (a b : IPv4) : Bool :=
  if a.b0 < b.b0 then true else if b.b0 < a.b0 then false else
  if a.b1 < b.b1 then true else if b.b1 < a.b1 then false else
  if a.b2 < b.b2 then true else if b.b2 < a.b2 then false else
  if a.b3 < b.b3 then true else if b.b3 < a.b3 then false else
  true

theorem IPv4.toNat_lt (ip : IPv4) (h : ip.Valid) : ip.toNat < 4294967296 := by
  obtain ⟨h0, h1, h2, h3⟩ := h
  simp only [IPv4.toNat]
  omega

theorem IPv4.ofNat_toNat (ip : IPv4) (h : ip.Valid) : IPv4.ofNat ip.toNat = ip := by
  obtain ⟨b0, b1, b2, b3⟩ := ip
  simp only [IPv4.Valid] at h
  obtain ⟨h0, h1, h2, h3⟩ := h
  simp only [IPv4.ofNat, IPv4.toNat, IPv4.mk.injEq]
  refine ⟨?_, ?_, ?_, ?_⟩ <;> omega

theorem incrementIP_toNat (ip : IPv4) (h : ip.Valid) (hlt : ip.toNat + 1 < 4294967296) :
    (incrementIP ip).toNat = ip.toNat + 1 ∧ (incrementIP ip).Valid := by
  obtain ⟨b0, b1, b2, b3⟩ := ip
  simp only [IPv4.Valid] at h
  obtain ⟨h0, h1, h2, h3⟩ := h
  simp only [IPv4.toNat] at hlt
  simp only [incrementIP, IPv4.Valid, IPv4.toNat]
  split_ifs <;> simp_all <;> omega

theorem incrementIP_valid (ip : IPv4) (h : ip.Valid) : (incrementIP ip).Valid := by
  obtain ⟨b0, b1, b2, b3⟩ := ip
  simp only [IPv4.Valid] at h
  obtain ⟨h0, h1, h2, h3⟩ := h
  simp only [incrementIP, IPv4.Valid]
  split_ifs <;> simp_all <;> omega

theorem lessThanOrEqual_iff (a b : IPv4) (ha : a.Valid) (hb : b.Valid) :
    lessThanOrEqual a b = true ↔ a.toNat ≤ b.toNat := by
  obtain ⟨a0, a1, a2, a3⟩ := a
  obtain ⟨b0, b1, b2, b3⟩ := b
  simp only [IPv4.Valid] at ha hb
  obtain ⟨ha0, ha1, ha2, ha3⟩ := ha
  obtain ⟨hb0, hb1, hb2, hb3⟩ := hb
  simp only [lessThanOrEqual, IPv4.toNat]
  split_ifs <;> simp_all <;> omega

theorem lessThanOrEqual_allOnes (ip : IPv4) (h : ip.Valid) :
    lessThanOrEqual ip ⟨255, 255, 255, 255⟩ = true := by
  obtain ⟨b0, b1, b2, b3⟩ := ip
  simp only [IPv4.Valid] at h
  obtain ⟨h0, h1, h2, h3⟩ := h
  simp only [lessThanOrEqual]
  split_ifs <;> simp_all <;> omega

/-- Renders an address the way `net.IP.String()` renders a 4-byte IP:
dotted decimal. -/
def ipToString (ip : IPv4) : String :=
  toString ip.b0 ++ "." ++ toString ip.b1 ++ "." ++ toString ip.b2 ++ "." ++ toString ip.b3

/-- Splits a character list at every dot, the way `strings.Split`-style
field splitting happens inside `net.ParseIP` for a dotted quad. -/
def splitFields : List Char → List (List Char)
  | [] => [[]]
  | c :: cs =>
    let rest := splitFields cs
    if c = '.' then [] :: rest
    else match rest with
      | [] => [[c]]
      | f :: fs => (c :: f) :: fs

/-- Decimal accumulation over the characters of one field. -/
def parseDecimal : List Char → Nat → Option Nat
  | [], acc => some acc
  | c :: cs, acc =>
    if c.isDigit then parseDecimal cs (acc * 10 + (c.toNat - 48)) else none

/-- One dotted-quad field as accepted by `net.ParseIP` for IPv4: decimal
digits, no leading zero (Go rejects those since 1.17), value below 256. -/
def parseField : List Char → Option Nat
  | [] => none
  | c :: cs =>
    if c = '0' ∧ cs ≠ [] then none
    else match parseDecimal (c :: cs) 0 with
      | none => none
      | some n => if n < 256 then some n else none

/-- Embeds the `net.ParseIP(s)` + `.To4()` combination used by
`GenerateFromRange` (src/target/target.go lines 60-76): a dotted quad of
four valid fields, `none` for anything else (including IPv6 forms, which
`To4` rejects; both failures produce an error in the Go code). -/
def parseIPv4 (s : String) : Option IPv4 :=
  match splitFields s.data with
  | [a, b, c, d] =>
    match parseField a, parseField b, parseField c, parseField d with
    | some x, some y, some z, some w => some ⟨x, y, z, w⟩
    | _, _, _, _ => none
  | _ => none

theorem parseField_lt (l : List Char) (n : Nat) (h : parseField l = some n) : n < 256 := by
  unfold parseField at h
  split at h
  · exact absurd h (by simp)
  · split_ifs at h
    split at h
    · exact absurd h (by simp)
    · split_ifs at h with hn
      · cases h; assumption

theorem parseIPv4_valid (s : String) (ip : IPv4) (h : parseIPv4 s = some ip) : ip.Valid := by
  unfold parseIPv4 at h
  split at h
  · split at h
    · rename_i x y z w hx hy hz hw
      cases h
      exact ⟨parseField_lt _ _ hx, parseField_lt _ _ hy, parseField_lt _ _ hz,
        parseField_lt _ _ hw⟩
    · exact absurd h (by simp)
  · exact absurd h (by simp)

/-- The result of a `target` package generator: Go's `([]string, error)`
pair collapsed to either an error or the generated list. -/
inductive GenResult where
  | err : GenResult
  | ok : List String → GenResult
deriving DecidableEq, Repr

/-- Embeds the generation loop of `GenerateFromRange`
(src/target/target.go lines 83-87):
`for ip := cloneIP(start); lessThanOrEqual(ip, end); incrementIP(ip)`
appending `ip.String()` on each iteration.  `fuel` bounds the number of
loop iterations the embedding is allowed to take; `none` means the loop
did not finish within `fuel` iterations. -/
def rangeLoop : Nat → IPv4 → IPv4 → List String → Option (List String)
  | 0, _, _, _ => none
  | fuel + 1, ip, endIp, acc =>
    if lessThanOrEqual ip endIp then
      rangeLoop fuel (incrementIP ip) endIp (acc ++ [ipToString ip])
    else
      some acc

/-- Embeds `GenerateFromRange` (src/target/target.go lines 59-89): parse
both addresses (error when either fails), error when start > end, else
run the generation loop. -/
def GenerateFromRange (fuel : Nat) (startIP endIP : String) : Option GenResult :=
  match parseIPv4 startIP with
  | none => some GenResult.err
  | some startAddr =>
    match parseIPv4 endIP with
    | none => some GenResult.err
    | some endAddr =>
      if lessThanOrEqual startAddr endAddr then
        (rangeLoop fuel startAddr endAddr []).map GenResult.ok
      else some GenResult.err

/-- When the end of the range is 255.255.255.255 the guard
`lessThanOrEqual ip end` can never become false (incrementIP wraps the
all-ones address to 0.0.0.0), so the loop consumes any amount of fuel. -/
theorem rangeLoop_allOnes (fuel : Nat) : ∀ (ip : IPv4) (acc : List String), ip.Valid →
    rangeLoop fuel ip ⟨255, 255, 255, 255⟩ acc = none := by
  induction fuel with
  | zero => intro ip acc _; rfl
  | succ n ih =>
    intro ip acc h
    simp only [rangeLoop, lessThanOrEqual_allOnes ip h, if_true]
    exact ih (incrementIP ip) (acc ++ [ipToString ip]) (incrementIP_valid ip h)

theorem map_funext {α β : Type} (l : List α) (f g : α → β) (h : ∀ a, f a = g a) :
    l.map f = l.map g := by
  induction l with
  | nil => rfl
  | cons x xs ih => simp [h x, ih]

theorem range_map_shift (m n : Nat) :
    (List.range (n + 1)).map (fun k => ipToString (IPv4.ofNat (m + k))) =
      ipToString (IPv4.ofNat m) ::
        (List.range n).map (fun k => ipToString (IPv4.ofNat (m + 1 + k))) := by
  rw [List.range_succ_eq_map]
  simp only [List.map_cons, List.map_map, Nat.add_zero, Function.comp]
  refine congrArg _ ?_
  refine map_funext _ _ _ (fun a => ?_)
  simp only [Function.comp_apply, Nat.succ_eq_add_one]
  have he : m + (a + 1) = m + 1 + a := by omega
  rw [he]

/-- The generation loop of `GenerateFromRange`, run with enough fuel on a
range whose end is not the all-ones address, appends exactly the
addresses `start, start+1, …, end` in ascending numeric order. -/
theorem rangeLoop_spec : ∀ (d fuel : Nat) (ip endIp : IPv4) (acc : List String),
    ip.Valid → endIp.Valid → endIp.toNat + 1 < 4294967296 →
    endIp.toNat = ip.toNat + d → d + 2 ≤ fuel →
    rangeLoop fuel ip endIp acc =
      some (acc ++ (List.range (d + 1)).map (fun k => ipToString (IPv4.ofNat (ip.toNat + k)))) := by
  intro d
  induction d with
  | zero =>
    intro fuel ip endIp acc hip hend hbound hd hfuel
    obtain ⟨f, rfl⟩ : ∃ f, fuel = f + 2 := ⟨fuel - 2, by omega⟩
    have hle1 : lessThanOrEqual ip endIp = true :=
      (lessThanOrEqual_iff ip endIp hip hend).mpr (by omega)
    have hinc := incrementIP_toNat ip hip (by omega)
    have hle2 : lessThanOrEqual (incrementIP ip) endIp = false := by
      by_contra hcon
      have htrue : lessThanOrEqual (incrementIP ip) endIp = true := by
        cases hx : lessThanOrEqual (incrementIP ip) endIp
        · exact absurd hx hcon
        · rfl
      have := (lessThanOrEqual_iff _ _ hinc.2 hend).mp htrue
      omega
    show rangeLoop (f + 1 + 1) ip endIp acc = _
    simp only [rangeLoop, hle1, hle2, if_true, Bool.false_eq_true, if_false]
    simp [List.range_succ, IPv4.ofNat_toNat ip hip]
  | succ d ih =>
    intro fuel ip endIp acc hip hend hbound hd hfuel
    obtain ⟨f, rfl⟩ : ∃ f, fuel = f + 1 := ⟨fuel - 1, by omega⟩
    have hle1 : lessThanOrEqual ip endIp = true :=
      (lessThanOrEqual_iff ip endIp hip hend).mpr (by omega)
    have hinc := incrementIP_toNat ip hip (by omega)
    simp only [rangeLoop, hle1, if_true]
    rw [ih f (incrementIP ip) endIp (acc ++ [ipToString ip]) hinc.2 hend hbound
      (by omega) (by omega)]
    rw [hinc.1, range_map_shift ip.toNat (d + 1)]
    simp [IPv4.ofNat_toNat ip hip]

/-- C7: GenerateFromRange returns an error when either string fails to
parse as IPv4 or start > end, and otherwise — provided the end address
is not 255.255.255.255, where the generation loop never terminates —
returns every address from start to end inclusive in ascending numeric
order (amended claim: the all-ones end address is excluded). -/
theorem generateFromRange_amended :
    (∀ fuel s e, parseIPv4 s = none ∨ parseIPv4 e = none →
      GenerateFromRange fuel s e = some GenResult.err) ∧
    (∀ fuel s e sa ea, parseIPv4 s = some sa → parseIPv4 e = some ea →
      ea.toNat < sa.toNat → GenerateFromRange fuel s e = some GenResult.err) ∧
    (∀ fuel s e sa ea, parseIPv4 s = some sa → parseIPv4 e = some ea →
      sa.toNat ≤ ea.toNat → ea.toNat + 1 < 4294967296 →
      ea.toNat - sa.toNat + 2 ≤ fuel →
      GenerateFromRange fuel s e =
        some (GenResult.ok ((List.range (ea.toNat - sa.toNat + 1)).map
          (fun k => ipToString (IPv4.ofNat (sa.toNat + k)))))) := by
  refine ⟨?_, ?_, ?_⟩
  · intro fuel s e h
    rcases h with h | h
    · simp only [GenerateFromRange, h]
    · cases hs : parseIPv4 s <;> simp only [GenerateFromRange, h, hs]
  · intro fuel s e sa ea hs he hlt
    have hva := parseIPv4_valid s sa hs
    have hve := parseIPv4_valid e ea he
    have hle : lessThanOrEqual sa ea = false := by
      cases hx : lessThanOrEqual sa ea
      · rfl
      · have := (lessThanOrEqual_iff sa ea hva hve).mp hx
        omega
    simp only [GenerateFromRange, hs, he, hle]
    simp
  · intro fuel s e sa ea hs he hle hbound hfuel
    have hva := parseIPv4_valid s sa hs
    have hve := parseIPv4_valid e ea he
    have hb : lessThanOrEqual sa ea = true := (lessThanOrEqual_iff sa ea hva hve).mpr hle
    simp only [GenerateFromRange, hs, he, hb, if_true]
    rw [rangeLoop_spec (ea.toNat - sa.toNat) fuel sa ea [] hva hve hbound (by omega) hfuel]
    simp

/-- C7 witness: the concrete example from the spec, 192.168.1.1 through
192.168.1.3, generated with ample fuel. -/
theorem generateFromRange_amended_witness :
    GenerateFromRange 50 "192.168.1.1" "192.168.1.3" =
      some (GenResult.ok ["192.168.1.1", "192.168.1.2", "192.168.1.3"]) := by
  have h := generateFromRange_amended.2.2 50 "192.168.1.1" "192.168.1.3"
    ⟨192, 168, 1, 1⟩ ⟨192, 168, 1, 3⟩ (by decide) (by decide) (by decide) (by decide)
    (by decide)
  exact h.trans (by decide)

/-- C7 counterexample: with start = end = 255.255.255.255 (a valid pair
with start ≤ end) the claim promises the one-element list, but the loop
never exits — 50 iterations of fuel, far more than the 3 a one-address
range needs (second conjunct), are exhausted without returning. -/
theorem generateFromRange_counterexample :
    GenerateFromRange 50 "255.255.255.255" "255.255.255.255" = none ∧
    GenerateFromRange 50 "0.0.0.100" "0.0.0.101" =
      some (GenResult.ok ["0.0.0.100", "0.0.0.101"]) := by
  constructor
  · have hp : parseIPv4 "255.255.255.255" = some ⟨255, 255, 255, 255⟩ := by decide
    simp only [GenerateFromRange, hp]
    rw [if_pos (by decide)]
    rw [rangeLoop_allOnes 50 ⟨255, 255, 255, 255⟩ [] (by decide)]
    rfl
  · decide

/-- C9: the implicit termination claim fails at end = 255.255.255.255.
The generation loop of GenerateFromRange exhausts every amount of fuel
on the range 255.255.255.254 – 255.255.255.255 because `incrementIP`
wraps the all-ones address to 0.0.0.0 and the guard
`lessThanOrEqual ip end` is true for every address. -/
theorem generateFromRange_allOnes_diverges :
    ∀ fuel : Nat, GenerateFromRange fuel "255.255.255.254" "255.255.255.255" = none := by
  intro fuel
  have hp1 : parseIPv4 "255.255.255.254" = some ⟨255, 255, 255, 254⟩ := by decide
  have hp2 : parseIPv4 "255.255.255.255" = some ⟨255, 255, 255, 255⟩ := by decide
  simp only [GenerateFromRange, hp1, hp2]
  rw [if_pos (by decide)]
  rw [rangeLoop_allOnes fuel ⟨255, 255, 255, 254⟩ [] (by decide)]
  rfl

/-- Splits a character list at the single slash of a CIDR string. -/
def splitSlash : List Char → List (List Char)
  | [] => [[]]
  | c :: cs =>
    let rest := splitSlash cs
    if c = '/' then [] :: rest
    else match rest with
      | [] => [[c]]
      | f :: fs => (c :: f) :: fs

/-- The mask-length field of a CIDR string as `net.ParseCIDR` accepts it
for IPv4: decimal, no leading zero, at most 32. -/
def parsePlen : List Char → Option Nat
  | [] => none
  | c :: cs =>
    if c = '0' ∧ cs ≠ [] then none
    else match parseDecimal (c :: cs) 0 with
      | none => none
      | some n => if n ≤ 32 then some n else none

/-- Embeds `net.ParseCIDR` for the IPv4 case (used by `GenerateFromCIDR`,
src/target/target.go lines 93-101): address part plus mask length.
Errors and IPv6 CIDRs both lead to an error return in Go; both are
`none` here. -/
def parseCIDR (s : String) : Option (IPv4 × Nat) :=
  match splitSlash s.data with
  | [addrPart, plenPart] =>
    match parseIPv4 (String.mk addrPart), parsePlen plenPart with
    | some ip, some n => some (ip, n)
    | _, _ => none
  | _ => none

/-- The 4-byte net mask of a given mask length (Go `net.CIDRMask`). -/
def maskOfPlen (n : Nat) : IPv4 :=
  let m := 4294967296 - 2 ^ (32 - n)
  ⟨m / 16777216 % 256, m / 65536 % 256, m / 256 % 256, m % 256⟩

/-- Byte-wise AND: the network address `addr.Mask(mask)` that
`net.ParseCIDR` stores in `ipNet.IP`. -/
def andIP (a b : IPv4) : IPv4 :=
  ⟨a.b0 &&& b.b0, a.b1 &&& b.b1, a.b2 &&& b.b2, a.b3 &&& b.b3⟩

/-- Byte-wise `end[i] |= ^mask[i]` (src/target/target.go lines 109-112):
OR with the byte complement of the mask (mask bytes are ≤ 255, so the Go
byte complement `^mask[i]` is `255 - mask[i]`). -/
def orNotMask (a mask : IPv4) : IPv4 :=
  ⟨a.b0 ||| (255 - mask.b0), a.b1 ||| (255 - mask.b1),
   a.b2 ||| (255 - mask.b2), a.b3 ||| (255 - mask.b3)⟩

/-- Embeds the generation loop of `GenerateFromCIDR`
(src/target/target.go lines 115-134).  In the Go code `start` is the
same slice as the loop variable (`start := cloneIP(ip)` followed by
`for ip := start; …`), so every `incrementIP(ip)` also advances the
contents seen through `start`; the embedding carries that shared cell as
the `startAlias` argument, updated in lockstep with `ip`.  Consequences
kept faithfully from the source: the network-address check
`ip.Equal(start)` compares the slice with itself, and the `continue`
after its `incrementIP(ip)` still runs the loop post-statement, so that
branch advances the address twice. -/
def cidrLoop : Nat → IPv4 → IPv4 → IPv4 → IPv4 → List String → Option (List String)
  | 0, _, _, _, _, _ => none
  | fuel + 1, ip, startAlias, endIp, mask, acc =>
    if lessThanOrEqual ip endIp then
      if mask.b3 < 255 then
        if ip = startAlias then
          cidrLoop fuel (incrementIP (incrementIP ip)) (incrementIP (incrementIP ip))
            endIp mask acc
        else if incrementIP ip = endIp then
          some acc
        else
          cidrLoop fuel (incrementIP ip) (incrementIP ip) endIp mask (acc ++ [ipToString ip])
      else
        cidrLoop fuel (incrementIP ip) (incrementIP ip) endIp mask (acc ++ [ipToString ip])
    else some acc

/-- Embeds `GenerateFromCIDR` (src/target/target.go lines 92-137): parse
the CIDR, take the network address `ipNet.IP` as start, OR the mask
complement into a copy to obtain the last address, then run the loop. -/
def GenerateFromCIDR (fuel : Nat) (cidr : String) : Option GenResult :=
  match parseCIDR cidr with
  | none => some GenResult.err
  | some (addr, plen) =>
    let mask := maskOfPlen plen
    let network := andIP addr mask
    let endIp := orNotMask network mask
    (cidrLoop fuel network network endIp mask []).map GenResult.ok

set_option maxRecDepth 100000 in
/-- C6: the CIDR generator returns the empty list for every prefix
length below 32 — in particular 0 addresses for 192.168.1.0/30 and for
192.168.1.0/24 where the claim (and the repository's own test) expects 2
and 254 — because the loop variable aliases `start`, making the
network-address skip fire on every iteration.  Only /32 yields its
single address. -/
theorem generateFromCIDR_eval :
    GenerateFromCIDR 600 "192.168.1.0/30" = some (GenResult.ok []) ∧
    GenerateFromCIDR 600 "192.168.1.0/24" = some (GenResult.ok []) ∧
    GenerateFromCIDR 600 "10.0.0.0/31" = some (GenResult.ok []) ∧
    GenerateFromCIDR 600 "10.0.0.7/32" = some (GenResult.ok ["10.0.0.7"]) := by
  refine ⟨by decide, by decide, by decide, by decide⟩

/-- Go's `math.MaxInt64`, the initial `MinRTT` of a fresh Result. -/
def maxInt64 : Int := 9223372036854775807

/-- Embeds the ping `Result` struct (src/ping/pinger.go lines 28-37 and
src/unnamed/part_001 lines 28-37).  `AvgRTT` and `StdDevRTT` are omitted:
they are written only by `printSummary` (display-only floating-point
post-processing) and no modelled operation reads them. -/
structure Result where
  target : String
  sent : Nat
  received : Nat
  rtts : List Int
  minRTT : Int
  maxRTT : Int
deriving DecidableEq, Repr

/-- The shared mutable state of a `Pinger`: the target list and the
`results` map (modelled as an association list; Go map iteration order
does not matter to any claim). -/
structure PingerState where
  targets : List String
  results : List (String × Result)
deriving DecidableEq, Repr

/-- Map lookup `p.results[target]` (a `nil` pointer when absent). -/
def lookupResult (st : PingerState) (t : String) : Option Result :=
  (st.results.find? (fun p => p.1 == t)).map (fun p => p.2)

/-- Replaces the entry of an existing key (writing through the
`*Result` pointer in Go mutates the entry in place). -/
def setFirst : List (String × Result) → String → Result → List (String × Result)
  | [], _, _ => []
  | p :: rest, t, r => if p.1 == t then (t, r) :: rest else p :: setFirst rest t r

def setResult (st : PingerState) (t : String) (r : Result) : PingerState :=
  { st with results := setFirst st.results t r }

/-- A fresh Result as built in `Run` (src/ping/pinger.go lines 65-72):
zero counts, empty RTT list, `MinRTT = math.MaxInt64`, `MaxRTT = 0`. -/
def emptyResult (t : String) : Result :=
  { target := t, sent := 0, received := 0, rtts := [], minRTT := maxInt64, maxRTT := 0 }

/-- Embeds the results-map preparation loop of `Run`
(src/ping/pinger.go lines 64-72). -/
def initState (targets : List String) : PingerState :=
  { targets := targets, results := targets.map (fun t => (t, emptyResult t)) }

/-- Embeds the send-side bookkeeping of `sendPings`
(src/ping/pinger.go lines 151-153): `p.results[target].Sent++` under the
mutex.  The send goroutines are spawned only for listed targets, so the
lookup always hits; the `none` branch keeps the function total. -/
def recordSent (st : PingerState) (t : String) : PingerState :=
  match lookupResult st t with
  | none => st
  | some r => setResult st t { r with sent := r.sent + 1 }

/-- Embeds the `select` timeout branch of a probe goroutine
(src/ping/pinger.go lines 166-173): on timer expiry the code only prints
a timeout line.  There is no correlation table and no probe state, so
the state transition is the identity. -/
def timeoutFire (st : PingerState) : PingerState := st

/-- One inbound datagram as the listener sees it after
`icmp.ParseMessage`: source address (already stripped to a host string),
parse success, ICMP type (`0` is `ipv4.ICMPTypeEchoReply`), whether the
body type assertion to `*icmp.Echo` succeeds, and the echo identifier
and sequence number. -/
structure InboundMessage where
  srcAddr : String
  parseOk : Bool
  icmpType : Nat
  bodyIsEcho : Bool
  echoId : Nat
  echoSeq : Nat
deriving DecidableEq, Repr

/-- Embeds the target-matching loop of the src/ping/pinger.go listener
(lines 248-262): the first listed target whose `net.LookupIP` result
contains the reply's source address.  `dns` is the resolver
environment. -/
def matchTarget (dns : String → List String) (targets : List String) (addr : String) :
    Option String :=
  targets.find? (fun t => (dns t).contains addr)

/-- Embeds the target-matching loop of the src/unnamed/part_001 listener
(lines 260-281): a direct string comparison first, then the
`net.LookupIP` comparison. -/
def matchTargetV2 (dns : String → List String) (targets : List String) (addr : String) :
    Option String :=
  targets.find? (fun t => t == addr || (dns t).contains addr)

/-- The common statistics update of both listeners
(src/ping/pinger.go lines 272-284, src/unnamed/part_001 lines 305-317):
`Received++`, append the rtt, refresh min and max. -/
def applyReply (result : Result) (rtt : Int) : Result :=
  { result with
    received := result.received + 1,
    rtts := result.rtts ++ [rtt],
    minRTT := if rtt < result.minRTT then rtt else result.minRTT,
    maxRTT := if result.maxRTT < rtt then rtt else result.maxRTT }

/-- Embeds one iteration of the src/ping/pinger.go listener
(lines 223-291) on a successfully read datagram.  The two `time.Now()`
calls of `rtt := time.Since(time.Now().Add(-p.config.Timeout))` (line
273) are the instants `now1` and `now2`, so the recorded value is
`now2 - (now1 - timeout)`; no send timestamp exists anywhere in the
state.  Replies that fail to parse, are not echo replies, or match no
target are skipped (`continue`). -/
def processReply (dns : String → List String) (timeout now1 now2 : Int)
    (st : PingerState) (m : InboundMessage) : PingerState :=
  if !m.parseOk then st
  else if m.icmpType ≠ 0 then st
  else if !m.bodyIsEcho then st
  else
    match matchTarget dns st.targets m.srcAddr with
    | none => st
    | some matchedTarget =>
      match lookupResult st matchedTarget with
      | none => st
      | some result =>
        let rtt := now2 - (now1 - timeout)
        setResult st matchedTarget (applyReply result rtt)

/-- The ad-hoc Result that the src/unnamed/part_001 listener creates for
a reply whose source address is not in the results map (lines 292-303):
`Sent: 1` on the assumption that a response implies a request. -/
def adHocResult (t : String) : Result :=
  { target := t, sent := 1, received := 0, rtts := [], minRTT := maxInt64, maxRTT := 0 }

/-- The entry-creation step of the src/unnamed/part_001 listener
(lines 290-303): when the map has no entry for the matched key, insert
the fresh ad-hoc Result; otherwise leave the map alone. -/
def insertAdHoc (st : PingerState) (t : String) : PingerState :=
  match lookupResult st t with
  | some _ => st
  | none => { st with results := st.results ++ [(t, adHocResult t)] }

/-- The whole mutex-protected map-update section of the
src/unnamed/part_001 listener (lines 289-323): create the entry if
absent, then the common statistics update on it. -/
def handleReplyV2 (st : PingerState) (matchedTarget : String) (rtt : Int) : PingerState :=
  match lookupResult (insertAdHoc st matchedTarget) matchedTarget with
  | none => insertAdHoc st matchedTarget
  | some result => setResult (insertAdHoc st matchedTarget) matchedTarget (applyReply result rtt)

/-- Embeds one iteration of the src/unnamed/part_001 listener
(lines 212-326) on a successfully read datagram.  Differences from the
src/ping/pinger.go listener: an unmatched source address is used as the
target key itself (lines 283-287), and a missing map entry is created
ad hoc (lines 292-303) before the common statistics update. -/
def processReplyV2 (dns : String → List String) (timeout now1 now2 : Int)
    (st : PingerState) (m : InboundMessage) : PingerState :=
  if !m.parseOk then st
  else if m.icmpType ≠ 0 then st
  else if !m.bodyIsEcho then st
  else
    handleReplyV2 st ((matchTargetV2 dns st.targets m.srcAddr).getD m.srcAddr)
      (now2 - (now1 - timeout))

/-- A resolver environment for concrete runs in which every target is a
literal address: `net.LookupIP` of an IP literal returns exactly that
address. -/
def dnsSelf : String → List String := fun t => [t]

/-- The states a run can reach: the initial results map followed by any
interleaving of the atomic (mutex-protected) steps of the send
goroutines, the timeout branches and either listener variant. -/
inductive Reachable : PingerState → Prop where
  | init : ∀ targets, Reachable (initState targets)
  | send : ∀ st t, Reachable st → Reachable (recordSent st t)
  | reply : ∀ st dns timeout now1 now2 m, Reachable st →
      Reachable (processReply dns timeout now1 now2 st m)
  | replyV2 : ∀ st dns timeout now1 now2 m, Reachable st →
      Reachable (processReplyV2 dns timeout now1 now2 st m)
  | timeout : ∀ st, Reachable st → Reachable (timeoutFire st)

theorem lookupResult_mem (st : PingerState) (t : String) (r : Result)
    (h : lookupResult st t = some r) : (t, r) ∈ st.results := by
  unfold lookupResult at h
  cases hf : st.results.find? (fun p => p.1 == t) with
  | none => rw [hf] at h; simp at h
  | some q =>
    rw [hf] at h
    simp at h
    have hmem := List.mem_of_find?_eq_some hf
    have hpred := List.find?_some hf
    obtain ⟨q1, q2⟩ := q
    have hq1 : q1 = t := by simpa using hpred
    subst hq1
    subst h
    exact hmem

theorem mem_setFirst (l : List (String × Result)) (t : String) (r : Result)
    (p : String × Result) (h : p ∈ setFirst l t r) : p = (t, r) ∨ p ∈ l := by
  induction l with
  | nil => simp [setFirst] at h
  | cons q rest ih =>
    simp only [setFirst] at h
    by_cases hq : (q.1 == t) = true
    · rw [if_pos hq] at h
      rcases List.mem_cons.mp h with h1 | h1
      · exact Or.inl h1
      · exact Or.inr (List.mem_cons_of_mem _ h1)
    · rw [if_neg hq] at h
      rcases List.mem_cons.mp h with h1 | h1
      · exact Or.inr (h1 ▸ List.mem_cons_self _ _)
      · rcases ih h1 with h2 | h2
        · exact Or.inl h2
        · exact Or.inr (List.mem_cons_of_mem _ h2)

/-- The state invariant of claim C10: every Result in the map has as
many recorded RTTs as received replies. -/
def RttInvariant (st : PingerState) : Prop :=
  ∀ p ∈ st.results, p.2.rtts.length = p.2.received

theorem rttInvariant_setResult_applyReply (st : PingerState) (tm : String)
    (result : Result) (rtt : Int) (hlook : lookupResult st tm = some result)
    (hinv : RttInvariant st) : RttInvariant (setResult st tm (applyReply result rtt)) := by
  intro p hp
  rcases mem_setFirst _ _ _ _ hp with h1 | h1
  · subst h1
    have hr := hinv (tm, result) (lookupResult_mem _ _ _ hlook)
    simp only [applyReply, List.length_append, List.length_cons, List.length_nil] at *
    omega
  · exact hinv p h1

/-- C1: the claim that the recorded RTT equals the monotonic elapsed
time from the probe's transmission to the reply's receipt is false on
the code.  A probe sent at monotonic time 0 whose reply is processed at
time 10 with the default 500 timeout gets 500 recorded — the listener's
`rtt := time.Since(time.Now().Add(-p.config.Timeout))` is the timeout
constant, independent of any send timestamp (none is even stored). -/
theorem listener_rtt_is_timeout_constant :
    (lookupResult
      (processReply dnsSelf 500 10 10 (recordSent (initState ["1.2.3.4"]) "1.2.3.4")
        { srcAddr := "1.2.3.4", parseOk := true, icmpType := 0, bodyIsEcho := true,
          echoId := 4242, echoSeq := 1 })
      "1.2.3.4").map Result.rtts = some [500] ∧ (500 : Int) ≠ 10 - 0 := by
  refine ⟨by decide, by decide⟩

/-- C2: the claim that a reply whose identifier differs from the run's
processIdentifier is ignored is false on the code.  With the run's
identifier 4242, a reply carrying identifier 7 from a listed address is
processed all the same — the listener never reads `reply.ID` — and the
target's received count rises from 0 to 1. -/
theorem listener_counts_foreign_identifier :
    (7 : Nat) ≠ 4242 ∧
    (lookupResult (recordSent (initState ["1.2.3.4"]) "1.2.3.4") "1.2.3.4").map
      Result.received = some 0 ∧
    (lookupResult
      (processReply dnsSelf 500 10 10 (recordSent (initState ["1.2.3.4"]) "1.2.3.4")
        { srcAddr := "1.2.3.4", parseOk := true, icmpType := 0, bodyIsEcho := true,
          echoId := 7, echoSeq := 1 })
      "1.2.3.4").map Result.received = some 1 := by
  refine ⟨by decide, by decide, by decide⟩

/-- C3: the claim that a reply arriving after its probe's timeout fired
is a no-op is false on the code.  The timeout branch only prints (the
state transition `timeoutFire` is the identity, there is no probe
state), so the late reply still increments received from 0 to 1 and the
recorded loss `sent - received` drops from 1 to 0. -/
theorem late_reply_after_timeout_counted :
    (lookupResult (timeoutFire (recordSent (initState ["1.2.3.4"]) "1.2.3.4")) "1.2.3.4").map
      (fun r => (r.sent, r.received)) = some (1, 0) ∧
    (lookupResult
      (processReply dnsSelf 500 600 600
        (timeoutFire (recordSent (initState ["1.2.3.4"]) "1.2.3.4"))
        { srcAddr := "1.2.3.4", parseOk := true, icmpType := 0, bodyIsEcho := true,
          echoId := 4242, echoSeq := 1 })
      "1.2.3.4").map (fun r => (r.sent, r.received)) = some (1, 1) := by
  refine ⟨by decide, by decide⟩

/-- C4: the invariant received ≤ sent is violated by the code.  One
probe is sent to 1.2.3.4 (sent = 1); two matching echo replies (a
duplicate) arrive and each increments received, leaving received = 2 >
sent = 1 — there is no correlation entry to consume, so nothing enforces
at-most-once accounting. -/
theorem received_exceeds_sent :
    lookupResult
      (processReply dnsSelf 500 10 10
        (processReply dnsSelf 500 5 5 (recordSent (initState ["1.2.3.4"]) "1.2.3.4")
          { srcAddr := "1.2.3.4", parseOk := true, icmpType := 0, bodyIsEcho := true,
            echoId := 4242, echoSeq := 1 })
        { srcAddr := "1.2.3.4", parseOk := true, icmpType := 0, bodyIsEcho := true,
          echoId := 4242, echoSeq := 1 })
      "1.2.3.4" =
      some { target := "1.2.3.4", sent := 1, received := 2, rtts := [500, 500],
             minRTT := 500, maxRTT := 500 } ∧
    ¬ ((2 : Nat) ≤ 1) := by
  refine ⟨by decide, by decide⟩

theorem find?_eq_none_key (l : List (String × Result)) (t : String)
    (h : l.find? (fun p => p.1 == t) = none) : ∀ q ∈ l, (q.1 == t) = false := by
  intro q hq
  have := List.find?_eq_none.mp h q hq
  simpa using this

theorem find?_append_key (l : List (String × Result)) (t : String) (r : Result)
    (h : l.find? (fun p => p.1 == t) = none) :
    (l ++ [(t, r)]).find? (fun p => p.1 == t) = some (t, r) := by
  induction l with
  | nil => simp
  | cons q rest ih =>
    have hq := find?_eq_none_key _ _ h q (List.mem_cons_self _ _)
    have hrest : rest.find? (fun p => p.1 == t) = none := by
      rw [List.find?_cons_of_neg] at h
      · exact h
      · simp [hq]
    rw [List.cons_append, List.find?_cons_of_neg]
    · exact ih hrest
    · simp [hq]

theorem setFirst_append_key (l : List (String × Result)) (t : String) (r0 r : Result)
    (h : l.find? (fun p => p.1 == t) = none) :
    setFirst (l ++ [(t, r0)]) t r = l ++ [(t, r)] := by
  induction l with
  | nil => simp [setFirst]
  | cons q rest ih =>
    have hq := find?_eq_none_key _ _ h q (List.mem_cons_self _ _)
    have hrest : rest.find? (fun p => p.1 == t) = none := by
      rw [List.find?_cons_of_neg] at h
      · exact h
      · simp [hq]
    simp only [List.cons_append, setFirst, hq, List.append_eq]
    rw [if_neg (by simp [hq])]
    rw [ih hrest]

/-- C5 (amended): the src/ping/pinger.go listener does silently discard
a reply whose source address matches no target — the state is unchanged
— but the src/unnamed/part_001 listener variant instead adopts the
foreign address as a target key and, when no entry exists for it,
appends a fresh ad-hoc Result (Sent = 1) with the reply recorded against
it. -/
theorem unmatched_reply_behavior :
    (∀ (dns : String → List String) (timeout now1 now2 : Int)
      (st : PingerState) (m : InboundMessage),
      matchTarget dns st.targets m.srcAddr = none →
      processReply dns timeout now1 now2 st m = st) ∧
    (∀ (dns : String → List String) (timeout now1 now2 : Int)
      (st : PingerState) (m : InboundMessage),
      m.parseOk = true → m.icmpType = 0 → m.bodyIsEcho = true →
      matchTargetV2 dns st.targets m.srcAddr = none →
      lookupResult st m.srcAddr = none →
      processReplyV2 dns timeout now1 now2 st m =
        { st with results := st.results ++
            [(m.srcAddr, applyReply (adHocResult m.srcAddr) (now2 - (now1 - timeout)))] }) := by
  constructor
  · intro dns timeout now1 now2 st m hmatch
    unfold processReply
    split_ifs <;> try rfl
    simp only [hmatch]
  · intro dns timeout now1 now2 st m hp ht hb hmatch hlook
    unfold processReplyV2
    rw [hp, ht, hb]
    simp only [Bool.not_true, Bool.false_eq_true, if_false, hmatch, Option.getD_none]
    have hfind : st.results.find? (fun p => p.1 == m.srcAddr) = none := by
      unfold lookupResult at hlook
      cases hf : st.results.find? (fun p => p.1 == m.srcAddr) with
      | none => rfl
      | some q => rw [hf] at hlook; simp at hlook
    have hlook2 : lookupResult
        { st with results := st.results ++ [(m.srcAddr, adHocResult m.srcAddr)] }
        m.srcAddr = some (adHocResult m.srcAddr) := by
      unfold lookupResult
      simp only
      rw [find?_append_key _ _ _ hfind]
      rfl
    unfold handleReplyV2 insertAdHoc
    simp only [hlook, hlook2]
    unfold setResult
    simp only
    rw [setFirst_append_key _ _ _ _ hfind]
    simp

/-- C5 witness: a stray reply from 9.9.9.9 against a run whose only
target is 10.0.0.1 leaves the src/ping/pinger.go listener's state
untouched. -/
theorem unmatched_reply_behavior_witness :
    processReply dnsSelf 500 0 0 (initState ["10.0.0.1"])
      { srcAddr := "9.9.9.9", parseOk := true, icmpType := 0, bodyIsEcho := true,
        echoId := 1, echoSeq := 1 } = initState ["10.0.0.1"] :=
  unmatched_reply_behavior.1 dnsSelf 500 0 0 (initState ["10.0.0.1"])
    { srcAddr := "9.9.9.9", parseOk := true, icmpType := 0, bodyIsEcho := true,
      echoId := 1, echoSeq := 1 } (by decide)

/-- C5 counterexample: the claim that every reply from an unlisted
address is discarded and creates no new Result entry is false on the
src/unnamed/part_001 listener: a reply from 8.8.8.8 when the only target
is 10.0.0.1 creates a brand-new entry with sent = 1, received = 1. -/
theorem unmatched_reply_creates_entry :
    lookupResult (initState ["10.0.0.1"]) "8.8.8.8" = none ∧
    lookupResult
      (processReplyV2 dnsSelf 500 10 10 (initState ["10.0.0.1"])
        { srcAddr := "8.8.8.8", parseOk := true, icmpType := 0, bodyIsEcho := true,
          echoId := 4242, echoSeq := 1 })
      "8.8.8.8" =
      some { target := "8.8.8.8", sent := 1, received := 1, rtts := [500],
             minRTT := 500, maxRTT := 500 } := by
  refine ⟨by decide, by decide⟩

/-- The number of `net.ResolveIPAddr` calls `sendPings` performs
(src/ping/pinger.go lines 120-145): the nested loops over probe index
and target spawn one goroutine per pair, and each goroutine's first step
is a resolution — no cache exists. -/
def sendPingsResolveCalls (count : Nat) (targets : List String) : Nat :=
  (List.range count).foldl (fun acc _ => targets.foldl (fun a _ => a + 1) acc) 0

/-- The number of `net.LookupIP` calls one listener iteration performs
while matching a reply's source address (src/ping/pinger.go lines
248-262): one per examined target, stopping after the first match. -/
def listenerLookupCalls (dns : String → List String) : List String → String → Nat
  | [], _ => 0
  | t :: ts, addr =>
    if (dns t).contains addr then 1 else 1 + listenerLookupCalls dns ts addr

theorem foldl_add_one {α : Type} (l : List α) (acc : Nat) :
    l.foldl (fun a _ => a + 1) acc = acc + l.length := by
  induction l generalizing acc with
  | nil => simp
  | cons x xs ih => simp only [List.foldl_cons, List.length_cons, ih]; omega

theorem foldl_add_const {α : Type} (l : List α) (c acc : Nat) :
    l.foldl (fun a _ => a + c) acc = acc + l.length * c := by
  induction l generalizing acc with
  | nil => simp
  | cons x xs ih => simp only [List.foldl_cons, List.length_cons, ih]; ring

/-- C8 (amended): resolution is not cached and not once-per-run.
`sendPings` resolves once per probe goroutine — `count × |targets|`
resolver calls per run — and the src/ping/pinger.go listener resolves
the targets again at receipt time to correlate each reply by source
address (at least one `net.LookupIP` call whenever the target list is
nonempty). -/
theorem resolution_per_probe_and_receipt :
    (∀ (count : Nat) (targets : List String),
      sendPingsResolveCalls count targets = count * targets.length) ∧
    (∀ (dns : String → List String) (t : String) (ts : List String) (addr : String),
      1 ≤ listenerLookupCalls dns (t :: ts) addr) := by
  constructor
  · intro count targets
    unfold sendPingsResolveCalls
    have hinner : (fun (acc : Nat) (_ : Nat) => targets.foldl (fun a _ => a + 1) acc) =
        fun acc _ => acc + targets.length := by
      funext acc k
      exact foldl_add_one targets acc
    rw [hinner, foldl_add_const]
    simp [List.length_range, Nat.mul_comm]
  · intro dns t ts addr
    unfold listenerLookupCalls
    split_ifs <;> omega

/-- C8 counterexample: with a single target and count = 2, the run
performs 2 resolutions of that target (the claim allows at most one),
and the listener performs a resolution while correlating an inbound
reply (the claim says correlation never re-resolves). -/
theorem resolution_counterexample :
    sendPingsResolveCalls 2 ["alpha.example"] = 2 ∧
    listenerLookupCalls dnsSelf ["alpha.example"] "9.9.9.9" = 1 := by
  refine ⟨by decide, by decide⟩

theorem rttInvariant_initState (targets : List String) : RttInvariant (initState targets) := by
  intro p hp
  simp only [initState, List.mem_map] at hp
  obtain ⟨t, _, rfl⟩ := hp
  simp [emptyResult]

theorem rttInvariant_recordSent (st : PingerState) (t : String) (hinv : RttInvariant st) :
    RttInvariant (recordSent st t) := by
  unfold recordSent
  cases hl : lookupResult st t with
  | none => exact hinv
  | some r =>
    intro p hp
    rcases mem_setFirst _ _ _ _ hp with h1 | h1
    · subst h1
      exact hinv (t, r) (lookupResult_mem _ _ _ hl)
    · exact hinv p h1

theorem rttInvariant_processReply (st : PingerState) (dns : String → List String)
    (timeout now1 now2 : Int) (m : InboundMessage) (hinv : RttInvariant st) :
    RttInvariant (processReply dns timeout now1 now2 st m) := by
  unfold processReply
  split_ifs <;> try exact hinv
  split
  · exact hinv
  · split
    · exact hinv
    · rename_i result hl
      exact rttInvariant_setResult_applyReply st _ result _ hl hinv

theorem rttInvariant_insertAdHoc (st : PingerState) (t : String) (hinv : RttInvariant st) :
    RttInvariant (insertAdHoc st t) := by
  unfold insertAdHoc
  split
  · exact hinv
  · intro p hp
    simp only [List.mem_append, List.mem_singleton] at hp
    rcases hp with h1 | h1
    · exact hinv p h1
    · subst h1; simp [adHocResult]

theorem rttInvariant_handleReplyV2 (st : PingerState) (t : String) (rtt : Int)
    (hinv : RttInvariant st) : RttInvariant (handleReplyV2 st t rtt) := by
  unfold handleReplyV2
  split
  · exact rttInvariant_insertAdHoc st t hinv
  · rename_i result hl
    exact rttInvariant_setResult_applyReply _ _ result _ hl (rttInvariant_insertAdHoc st t hinv)

theorem rttInvariant_processReplyV2 (st : PingerState) (dns : String → List String)
    (timeout now1 now2 : Int) (m : InboundMessage) (hinv : RttInvariant st) :
    RttInvariant (processReplyV2 dns timeout now1 now2 st m) := by
  unfold processReplyV2
  split_ifs <;> try exact hinv
  exact rttInvariant_handleReplyV2 st _ _ hinv

/-- C10: in every reachable state of a run — under any interleaving of
the send steps, timeout firings and reply processings of either
listener variant — every Result holds exactly as many recorded RTTs as
received replies: the listeners increment `Received` and append one RTT
inside the same mutex-protected section, and no other operation touches
either field. -/
theorem rtts_length_eq_received (st : PingerState) (h : Reachable st) :
    ∀ p ∈ st.results, p.2.rtts.length = p.2.received := by
  induction h with
  | init targets => exact rttInvariant_initState targets
  | send st t _ ih => exact rttInvariant_recordSent st t ih
  | reply st dns timeout now1 now2 m _ ih =>
    exact rttInvariant_processReply st dns timeout now1 now2 m ih
  | replyV2 st dns timeout now1 now2 m _ ih =>
    exact rttInvariant_processReplyV2 st dns timeout now1 now2 m ih
  | timeout st _ ih => exact ih

/-- C10 witness: the invariant instantiated in the state reached by one
send to 1.2.3.4 followed by one processed reply. -/
theorem rtts_length_eq_received_witness :
    (("1.2.3.4",
      { target := "1.2.3.4", sent := 1, received := 1, rtts := [(500 : Int)],
        minRTT := 500, maxRTT := 500 }) : String × Result).2.rtts.length =
    (("1.2.3.4",
      { target := "1.2.3.4", sent := 1, received := 1, rtts := [(500 : Int)],
        minRTT := 500, maxRTT := 500 }) : String × Result).2.received :=
  rtts_length_eq_received
    (processReply dnsSelf 500 10 10 (recordSent (initState ["1.2.3.4"]) "1.2.3.4")
      { srcAddr := "1.2.3.4", parseOk := true, icmpType := 0, bodyIsEcho := true,
        echoId := 4242, echoSeq := 1 })
    (Reachable.reply _ dnsSelf 500 10 10
      { srcAddr := "1.2.3.4", parseOk := true, icmpType := 0, bodyIsEcho := true,
        echoId := 4242, echoSeq := 1 }
      (Reachable.send _ "1.2.3.4" (Reachable.init ["1.2.3.4"])))
    _ (by decide)

end GoPing
